import Mathlib

/-!
Shallow embedding of the shell in `src/main.rs` (a codecrafters build-your-own-shell
solution in Rust): the tokenizer `parse`, the executable resolver `find_executable`,
the builtin handlers `builtin_exit`/`builtin_echo`/`builtin_type`/`builtin_pwd`/
`builtin_cd`, and one iteration of the REPL loop in `main`.

Machine-level side effects are made explicit: directory listings, the process
spawner and the working-directory syscalls become function-valued fields of
`ShellEnv` and `CdWorld`; everything printed becomes a list of `OutEvent`s.
-/

/-- Rust `char::is_whitespace`: the Unicode `White_Space` property. -/
def rustIsWhitespace (c : Char) : Bool :=
  c = ' ' || c = '\t' || c = '\n' || c = '\x0b' || c = '\x0c' || c = '\r' ||
  c.val = 0x85 || c.val = 0xA0 || c.val = 0x1680 ||
  (0x2000 ≤ c.val && c.val ≤ 0x200A) ||
  c.val = 0x2028 || c.val = 0x2029 || c.val = 0x202F || c.val = 0x205F || c.val = 0x3000

/-- The failure cases of `parse` (each is an `anyhow` error built with `.context(...)`
in the source). -/
inductive ParseError where
  /-- Message: did not find a closing single quote. -/
  | unterminatedSingle
  /-- Message: did not find a closing double quote. -/
  | unterminatedDouble
  /-- Message: expected a character after the backslash, but got nothing. -/
  | danglingEscape
deriving Repr, DecidableEq

/-- Models `it.by_ref().find(|(_, ch)| *ch == q)` on the character iterator: consume
characters up to and including the first occurrence of `q`; return the characters
strictly before it (the verbatim quoted span `input[i + 1..closing_quote_index]`)
together with the characters after the closing quote, or `none` if `q` never
occurs. -/
def takeUntilQuote (q : Char) : List Char → Option (List Char × List Char)
  | [] => none
  | c :: rest =>
    if c = q then some ([], rest)
    else
      match takeUntilQuote q rest with
      | none => none
      | some (content, rem) => some (c :: content, rem)

/-- The scanning loop of `parse` in `main.rs`, made structurally recursive on an
explicit fuel counter (the Rust `while let` consumes at least one character per
iteration, so `fuel = input.length` always suffices; see `parseLoopF_congr`).
The returned list is `components` front-to-back; `cur` is `current_component`.
Branch order mirrors the source: `'`, `"`, `\`, whitespace, other; at end of
input a non-empty current component is flushed. -/
def parseLoopF : Nat → List Char → List Char → Except ParseError (List (List Char))
  | _, [], cur => .ok (if cur.isEmpty then [] else [cur])
  | 0, _ :: _, _ => .error .danglingEscape
  | fuel + 1, c :: rest, cur =>
    if c = '\'' then
      match takeUntilQuote '\'' rest with
      | none => .error .unterminatedSingle
      | some (content, rem) =>
        Except.map (fun comps => content :: comps) (parseLoopF fuel rem cur)
    else if c = '"' then
      match takeUntilQuote '"' rest with
      | none => .error .unterminatedDouble
      | some (content, rem) =>
        Except.map (fun comps => content :: comps) (parseLoopF fuel rem cur)
    else if c = '\\' then
      match rest with
      | [] => .error .danglingEscape
      | d :: rem => parseLoopF fuel rem (cur ++ [d])
    else if rustIsWhitespace c then
      Except.map (fun comps => cur :: comps)
        (parseLoopF fuel (rest.dropWhile rustIsWhitespace) [])
    else
      parseLoopF fuel rest (cur ++ [c])

/-- The scanning loop of `parse`, with the fuel fixed at its sufficient value. -/
def parseLoop (l cur : List Char) : Except ParseError (List (List Char)) :=
  parseLoopF l.length l cur

/-- Rust `struct Cmd { program: String, args: Vec<String> }`. -/
structure Cmd where
  program : String
  args : List String
deriving Repr, DecidableEq

/-- Rust `fn parse(input: &str) -> Result<Cmd>`.  The function asserts the input is
non-empty and ends with `components.remove(0)`, which would panic on an empty
vector; `parseLoop_ok_ne_nil` below shows that branch is unreachable for non-empty
input, so it is mapped to a dummy value here. -/
def parse (input : List Char) : Except ParseError Cmd :=
  match parseLoop input [] with
  | .error e => .error e
  | .ok [] => .ok ⟨"", []⟩
  | .ok (p :: rest) => .ok ⟨String.mk p, rest.map String.mk⟩

/-- The `trim_newline` extension method: strip one trailing `'\n'`, and if one was
stripped also strip one trailing `'\r'` before it. -/
def trim_newline (l : List Char) : List Char :=
  match l.getLast? with
  | none => l
  | some c =>
    if c = '\n' then
      match l.dropLast.getLast? with
      | none => l.dropLast
      | some c2 => if c2 = '\r' then l.dropLast.dropLast else l.dropLast
    else l

/-- Models `input.trim_start().trim_newline()` in `main`: the line as it reaches the
emptiness check and the tokenizer. -/
def processedInput (rawLine : String) : List Char :=
  trim_newline (rawLine.data.dropWhile rustIsWhitespace)

/-- Value of `SYSTEM_PATH_SPERATOR` under `cfg(not(windows))` (the typo is the source's). -/
def SYSTEM_PATH_SPERATOR : Char := ':'

/-- Rust `str::split` with a one-character pattern: the pieces between separator
occurrences, in order; an empty string yields one empty piece, a trailing
separator yields a trailing empty piece. -/
def splitSep (sep : Char) : List Char → List (List Char)
  | [] => [[]]
  | c :: rest =>
    if c = sep then [] :: splitSep sep rest
    else
      match splitSep sep rest with
      | [] => [[c]]
      | t :: ts => (c :: t) :: ts

/-- Models `entry.path()`: the directory path joined with the entry's file name. -/
def pathJoin (dir entry : String) : String := dir ++ "/" ++ entry

/-- The inner `for entry in entries` loop of `find_executable`: return the joined
path of the first entry equal to the name or to the name with the executable
suffix appended. -/
def scanEntries (dir suffix name : String) : List String → Option String
  | [] => none
  | e :: rest =>
    if e == name || e == name ++ suffix then some (pathJoin dir e)
    else scanEntries dir suffix name rest

/-- The outer `for path in search_path.split(...)` loop of `find_executable`:
directories whose listing fails (`fs::read_dir` returns `Err`) are skipped with
`continue`; otherwise the first entry match in the directory wins, and only if the
whole directory has no match does the scan move on. -/
def searchDirs (listing : String → Option (List String)) (suffix name : String) :
    List String → Option String
  | [] => none
  | d :: dirs =>
    match listing d with
    | none => searchDirs listing suffix name dirs
    | some entries =>
      match scanEntries d suffix name entries with
      | some p => some p
      | none => searchDirs listing suffix name dirs

/-- Rust `fn find_executable(search_path: &str, executable_name: &str) -> Option<PathBuf>`.
`listing` stands for `fs::read_dir` (`none` = the directory cannot be listed);
`suffix` is `env::consts::EXE_SUFFIX`. -/
def find_executable (listing : String → Option (List String))
    (suffix search_path executable_name : String) : Option String :=
  searchDirs listing suffix executable_name
    ((splitSep SYSTEM_PATH_SPERATOR search_path.data).map String.mk)

/-- Modelled from the spec's words (§4.2 Executable Resolver), for comparison with
the code's `find_executable`: for each directory in order, attempt to list it,
silently skipping directories that cannot be listed; within a listing return the
(joined path of the) first entry equal to `name` exactly or to `name` plus the
platform executable suffix; return nothing when no directory yields a match. -/
def resolveSpec (listing : String → Option (List String)) (suffix name : String) :
    List String → Option String
  | [] => none
  | d :: dirs =>
    match listing d with
    | none => resolveSpec listing suffix name dirs
    | some entries =>
      match entries.find? (fun e => e == name || e == name ++ suffix) with
      | some e => some (pathJoin d e)
      | none => resolveSpec listing suffix name dirs

/-- The key set of the static `BUILTINS` map. -/
def builtinNames : List String := ["exit", "echo", "type", "pwd", "cd"]

/-- Rust `str::parse::<u8>` on the digit part: optional leading `'+'` removed, one or more ASCII digits,
value at most 255; anything else (including an empty digit string or a minus
sign) is a parse failure. -/
def parseU8Digits (cs : List Char) : Option Nat :=
  if cs.isEmpty then none
  else if cs.all Char.isDigit then
    if cs.foldl (fun a c => a * 10 + (c.toNat - 48)) 0 ≤ 255 then
      some (cs.foldl (fun a c => a * 10 + (c.toNat - 48)) 0)
    else none
  else none

/-- Rust `str::parse::<u8>` on a whole string. -/
def parseU8 (s : String) : Option Nat :=
  match s.data with
  | '+' :: rest => parseU8Digits rest
  | cs => parseU8Digits cs

/-- The `.context(...)` message attached to a failed exit-code parse. -/
def exitParseMsg : String :=
  "unable to parse exit code, it must be a number in the range [0,255]"

/-- Rust `fn builtin_exit`: no argument requests termination with status 0; otherwise
the first argument must parse as a `u8`, whose value is the requested status. -/
def builtin_exit (args : List String) : Except String (Option Nat) :=
  match args.head? with
  | none => .ok (some 0)
  | some code =>
    match parseU8 code with
    | some n => .ok (some n)
    | none => .error exitParseMsg

/-- Rust `fn builtin_echo`: print the arguments joined by single spaces; never errors,
never requests termination.  First component: the printed lines. -/
def builtin_echo (args : List String) : List String × Except String (Option Nat) :=
  ([String.intercalate " " args], .ok none)

/-- The line `builtin_type` prints for one name. -/
def typeLine (listing : String → Option (List String)) (suffix search_path arg : String) :
    String :=
  if builtinNames.contains arg then arg ++ " is a shell builtin"
  else
    match find_executable listing suffix search_path arg with
    | some p => arg ++ " is " ++ p
    | none => arg ++ ": not found"

/-- The `for arg in args` loop of `builtin_type`: one printed line per name, in
order; builtin membership is checked before the search path. -/
def typeLoop (listing : String → Option (List String)) (suffix search_path : String) :
    List String → List String
  | [] => []
  | arg :: rest =>
    (if builtinNames.contains arg then arg ++ " is a shell builtin"
     else
       match find_executable listing suffix search_path arg with
       | some p => arg ++ " is " ++ p
       | none => arg ++ ": not found")
      :: typeLoop listing suffix search_path rest

/-- Rust `fn builtin_type`: the printed lines plus the handler result, always `Ok(None)`. -/
def builtin_type (listing : String → Option (List String)) (suffix search_path : String)
    (args : List String) : List String × Except String (Option Nat) :=
  (typeLoop listing suffix search_path args, .ok none)

/-- The result of `fs::canonicalize`: success, failure with
`io::ErrorKind::NotFound`, or any other failure. -/
inductive CanonResult where
  | ok (path : String)
  | notFound
  | otherErr (msg : String)

/-- The process-wide state touched by `builtin_cd` and `builtin_pwd`: the current
working directory, whether the `env::current_dir()` query succeeds (`false` =
the query returns an `Err`, which both handlers propagate), the `HOME` variable
(`none` = unset), and the outcomes of the `fs::canonicalize` and
`env::set_current_dir` calls. -/
structure CdWorld where
  cwd : String
  cwdReadable : Bool
  home : Option String
  canonicalize : String → CanonResult
  chdirOk : String → Bool

/-- Outcome of one `builtin_cd` call: `panicked` is the `assert!(args.len() == 1)`
firing, `fatal` an `Err` propagated to `main`, `ok` a normal return carrying the
printed lines and the (possibly updated) world. -/
inductive CdResult where
  | panicked
  | fatal (msg : String)
  | ok (printed : List String) (w : CdWorld)

/-- Rust `fn builtin_cd`: asserts exactly one argument; special-cases `~` to the `HOME`
variable (an unset variable or a failed directory change is a propagated error);
otherwise first runs `let cwd = env::current_dir()?;` (a failed query is a
propagated error), then canonicalizes the argument, printing the not-found
message and leaving the world unchanged when canonicalization fails with
`NotFound`, propagating any other canonicalization or directory-change failure
as an error. -/
def builtin_cd (w : CdWorld) (args : List String) : CdResult :=
  match args with
  | [input] =>
    if input = "~" then
      match w.home with
      | none => .fatal "environment variable not found"
      | some home =>
        if w.chdirOk home then .ok [] { w with cwd := home }
        else .fatal "could not set current directory"
    else if w.cwdReadable then
      match w.canonicalize input with
      | .ok path =>
        if w.chdirOk path then .ok [] { w with cwd := path }
        else .fatal "could not set current directory"
      | .notFound => .ok ["cd: " ++ input ++ ": No such file or directory"] w
      | .otherErr msg => .fatal msg
    else .fatal "could not get current directory"
  | _ => .panicked

/-- The read-once process configuration plus the spawning primitive: `listing` is
`fs::read_dir`, `exeSuffix` is `EXE_SUFFIX`, `searchPath` is the `SYSTEM_PATH`
static (the `PATH` variable), and `runProgram` is
`Command::new(p).args(args).output()` returning the child's captured stdout and
stderr bytes. -/
structure ShellEnv where
  listing : String → Option (List String)
  exeSuffix : String
  searchPath : String
  runProgram : String → List String → String × String

/-- One write performed by the shell process on its own streams. -/
inductive OutEvent where
  | out (bytes : String)
  | errOut (bytes : String)
deriving Repr, DecidableEq

/-- An `Err` that reaches `main`'s `?` operators and ends the process. -/
inductive FatalErr where
  /-- a tokenizer failure, wrapped by `.context("unable to parse prompt")` -/
  | parseFailure (e : ParseError)
  /-- an `Err` returned by a builtin handler -/
  | builtinFailure (msg : String)
deriving Repr, DecidableEq

/-- Result of one iteration of `main`'s loop: continue to the next prompt, return
an exit code, return an error (process ends with failure), or panic. -/
inductive StepResult where
  | next (w : CdWorld) (events : List OutEvent)
  | exited (code : Nat) (events : List OutEvent)
  | fatal (e : FatalErr) (events : List OutEvent)
  | panicked (events : List OutEvent)

/-- The dispatch decision in `main` (lines 60–73): builtin lookup first, then the
resolver used as an existence check, then not-found.  `spawnProgram` carries the
value passed to `Command::new`, which in the source is the bare `program` string,
not the path returned by `find_executable`. -/
inductive DispatchAction where
  | runBuiltin (name : String) (args : List String)
  | spawnProgram (program : String) (args : List String)
  | reportNotFound (program : String)
deriving Repr, DecidableEq

/-- The dispatch step of `main` on a parsed command. -/
def dispatch (env : ShellEnv) (cmd : Cmd) : DispatchAction :=
  if builtinNames.contains cmd.program then .runBuiltin cmd.program cmd.args
  else if (find_executable env.listing env.exeSuffix env.searchPath cmd.program).isSome then
    .spawnProgram cmd.program cmd.args
  else .reportNotFound cmd.program

/-- Running the looked-up builtin handler in `main`: `builtin_fn(cmd.args)?` — an
`Err` from the handler propagates out of the loop, a `Some(exit_code)` makes
`main` return it, and `None` continues the loop.  `println!` output becomes an
`OutEvent.out` with a trailing newline. -/
def runBuiltinStep (env : ShellEnv) (w : CdWorld) (name : String) (args : List String) :
    StepResult :=
  if name = "exit" then
    match builtin_exit args with
    | .error msg => .fatal (.builtinFailure msg) []
    | .ok (some code) => .exited code []
    | .ok none => .next w []
  else if name = "echo" then
    .next w ((builtin_echo args).1.map (fun s => OutEvent.out (s ++ "\n")))
  else if name = "type" then
    .next w ((typeLoop env.listing env.exeSuffix env.searchPath args).map
      (fun s => OutEvent.out (s ++ "\n")))
  else if name = "pwd" then
    if w.cwdReadable then .next w [.out (w.cwd ++ "\n")]
    else .fatal (.builtinFailure "could not get current directory") []
  else if name = "cd" then
    match builtin_cd w args with
    | .panicked => .panicked []
    | .fatal msg => .fatal (.builtinFailure msg) []
    | .ok printed w' => .next w' (printed.map (fun s => OutEvent.out (s ++ "\n")))
  else .next w []

/-- One iteration of `main`'s loop after a line has been read: trim it, skip empty
lines, tokenize (a failure propagates via `?` with context "unable to parse
prompt"), dispatch, and for an external program write its captured stdout and
stderr through unchanged. -/
def step (env : ShellEnv) (w : CdWorld) (rawLine : String) : StepResult :=
  let input := processedInput rawLine
  if input.isEmpty then .next w []
  else
    match parse input with
    | .error e => .fatal (.parseFailure e) []
    | .ok cmd =>
      match dispatch env cmd with
      | .runBuiltin name args => runBuiltinStep env w name args
      | .spawnProgram prog args =>
        .next w [.out (env.runProgram prog args).1, .errOut (env.runProgram prog args).2]
      | .reportNotFound prog => .next w [.out (prog ++ ": command not found\n")]

/-- A concrete environment: empty search path, no listable directories, an echoing
spawn primitive. -/
def env0 : ShellEnv :=
  { listing := fun _ => none
    exeSuffix := ""
    searchPath := ""
    runProgram := fun _ _ => ("", "") }

/-- A concrete world: the working directory is readable and every
canonicalization fails with not-found. -/
def w0 : CdWorld :=
  { cwd := "/"
    cwdReadable := true
    home := some "/root"
    canonicalize := fun _ => .notFound
    chdirOk := fun _ => true }

/-- A concrete world whose `env::current_dir()` query fails. -/
def w0unreadable : CdWorld :=
  { cwd := "/"
    cwdReadable := false
    home := some "/root"
    canonicalize := fun _ => .notFound
    chdirOk := fun _ => true }

/-- A concrete listing with a single readable directory `/bin` containing the
entries `echo` and `ls`. -/
def listingBin : String → Option (List String) :=
  fun d => if d = "/bin" then some ["echo", "ls"] else none

/-- A concrete environment whose search path resolves `ls` to `/bin/ls` and whose
spawn primitive reports the program value it was given on the child's stdout. -/
def envBin : ShellEnv :=
  { listing := listingBin
    exeSuffix := ""
    searchPath := "/bin"
    runProgram := fun p _ => (p, "") }

/- ======================  theorems  ====================== -/

theorem takeUntilQuote_length {q : Char} :
    ∀ {l content rem : List Char}, takeUntilQuote q l = some (content, rem) →
      rem.length < l.length := by
  intro l
  induction l with
  | nil => intro _ _ h; simp [takeUntilQuote] at h
  | cons c rest ih =>
    intro content rem h
    rw [takeUntilQuote] at h
    by_cases hc : c = q
    · rw [if_pos hc] at h
      simp only [Option.some.injEq, Prod.mk.injEq] at h
      rw [← h.2]
      simp
    · rw [if_neg hc] at h
      cases htq : takeUntilQuote q rest with
      | none => rw [htq] at h; exact absurd h (by simp)
      | some p =>
        obtain ⟨content', rem'⟩ := p
        rw [htq] at h
        simp only [Option.some.injEq, Prod.mk.injEq] at h
        have := ih htq
        rw [← h.2]
        simp only [List.length_cons]
        omega

theorem dropWhile_length_le (p : Char → Bool) :
    ∀ l : List Char, (l.dropWhile p).length ≤ l.length := by
  intro l
  induction l with
  | nil => simp [List.dropWhile]
  | cons c rest ih =>
    rw [List.dropWhile_cons]
    by_cases hp : p c = true
    · rw [if_pos hp]; exact Nat.le_succ_of_le ih
    · rw [if_neg hp]

/-- Any fuel at least the input length computes the same result as fuel exactly the
input length: the fuel counter is an artifact of the embedding, not of the
algorithm. -/
theorem parseLoopF_congr :
    ∀ fuel l cur, List.length l ≤ fuel → parseLoopF fuel l cur = parseLoop l cur := by
  intro fuel
  induction fuel using Nat.strong_induction_on with
  | _ fuel ih =>
    intro l cur hlen
    match fuel, l with
    | fuel, [] => cases fuel <;> rfl
    | 0, c :: rest => simp at hlen
    | f + 1, c :: rest =>
      have hr : rest.length ≤ f := by
        simp only [List.length_cons] at hlen; omega
      show parseLoopF (f + 1) (c :: rest) cur = parseLoopF (rest.length + 1) (c :: rest) cur
      simp only [parseLoopF]
      by_cases h1 : c = '\''
      · rw [if_pos h1, if_pos h1]
        split
        · rfl
        · rename_i content rem htq
          have hlt : rem.length < rest.length := takeUntilQuote_length htq
          rw [ih f (by omega) rem cur (by omega),
              ih rest.length (by omega) rem cur (by omega)]
      · rw [if_neg h1, if_neg h1]
        by_cases h2 : c = '"'
        · rw [if_pos h2, if_pos h2]
          split
          · rfl
          · rename_i content rem htq
            have hlt : rem.length < rest.length := takeUntilQuote_length htq
            rw [ih f (by omega) rem cur (by omega),
                ih rest.length (by omega) rem cur (by omega)]
        · rw [if_neg h2, if_neg h2]
          by_cases h3 : c = '\\'
          · rw [if_pos h3, if_pos h3]
            split
            · rfl
            · rename_i d rem
              have hr' : rem.length + 1 ≤ f := by simpa using hr
              rw [ih f (by omega) rem (cur ++ [d]) (by omega),
                  ih (d :: rem).length (by simp only [List.length_cons]; omega)
                    rem (cur ++ [d]) (by simp)]
          · rw [if_neg h3, if_neg h3]
            by_cases h4 : rustIsWhitespace c = true
            · rw [if_pos h4, if_pos h4]
              have hd := dropWhile_length_le rustIsWhitespace rest
              rw [ih f (by omega) (rest.dropWhile rustIsWhitespace) [] (by omega),
                  ih rest.length (by omega) (rest.dropWhile rustIsWhitespace) [] (by omega)]
            · rw [if_neg h4, if_neg h4]
              rw [ih f (by omega) rest (cur ++ [c]) (by omega)]
              rfl

theorem exceptMap_eq_ok {α β ε : Type} {g : α → β} {x : Except ε α} {y : β}
    (h : Except.map g x = .ok y) : ∃ z, x = .ok z ∧ y = g z := by
  cases x with
  | error e => simp [Except.map] at h
  | ok z => exact ⟨z, rfl, by simpa [Except.map] using h.symm⟩

theorem parseLoopF_ok_ne_nil :
    ∀ fuel l cur comps, (l ≠ [] ∨ cur ≠ []) → parseLoopF fuel l cur = .ok comps →
      comps ≠ [] := by
  intro fuel
  induction fuel with
  | zero =>
    intro l cur comps hne h
    match l, hne with
    | [], .inl hl => exact absurd rfl hl
    | [], .inr hcur =>
      simp only [parseLoopF] at h
      rw [if_neg (by simpa using hcur)] at h
      simp only [Except.ok.injEq] at h
      rw [← h]
      simp
    | c :: rest, _ => simp [parseLoopF] at h
  | succ f ih =>
    intro l cur comps hne h
    match l, hne with
    | [], .inl hl => exact absurd rfl hl
    | [], .inr hcur =>
      simp only [parseLoopF] at h
      rw [if_neg (by simpa using hcur)] at h
      simp only [Except.ok.injEq] at h
      rw [← h]
      simp
    | c :: rest, _ =>
      simp only [parseLoopF] at h
      by_cases h1 : c = '\''
      · rw [if_pos h1] at h
        cases htq : takeUntilQuote '\'' rest with
        | none => rw [htq] at h; exact absurd h (by simp)
        | some p =>
          obtain ⟨content, rem⟩ := p
          rw [htq] at h
          obtain ⟨z, _, hy⟩ := exceptMap_eq_ok h
          rw [hy]
          simp
      · rw [if_neg h1] at h
        by_cases h2 : c = '"'
        · rw [if_pos h2] at h
          cases htq : takeUntilQuote '"' rest with
          | none => rw [htq] at h; exact absurd h (by simp)
          | some p =>
            obtain ⟨content, rem⟩ := p
            rw [htq] at h
            obtain ⟨z, _, hy⟩ := exceptMap_eq_ok h
            rw [hy]
            simp
        · rw [if_neg h2] at h
          by_cases h3 : c = '\\'
          · rw [if_pos h3] at h
            match rest, h with
            | [], h => exact absurd h (by simp)
            | d :: rem, h => exact ih rem (cur ++ [d]) comps (Or.inr (by simp)) h
          · rw [if_neg h3] at h
            by_cases h4 : rustIsWhitespace c = true
            · rw [if_pos h4] at h
              obtain ⟨z, _, hy⟩ := exceptMap_eq_ok h
              rw [hy]
              simp
            · rw [if_neg h4] at h
              exact ih rest (cur ++ [c]) comps (Or.inr (by simp)) h

theorem parseLoop_ok_ne_nil (l cur : List Char) (comps : List (List Char))
    (hne : l ≠ [] ∨ cur ≠ []) (h : parseLoop l cur = .ok comps) : comps ≠ [] :=
  parseLoopF_ok_ne_nil l.length l cur comps hne h

theorem takeUntilQuote_eq_none {q : Char} : ∀ l : List Char, q ∉ l →
    takeUntilQuote q l = none := by
  intro l
  induction l with
  | nil => intro _; rfl
  | cons c rest ih =>
    intro hq
    rw [takeUntilQuote, if_neg (by intro hc; exact hq (hc ▸ List.mem_cons_self c rest)),
      ih (fun hm => hq (List.mem_cons_of_mem c hm))]

theorem takeUntilQuote_eq_some {q : Char} : ∀ l : List Char, q ∈ l →
    takeUntilQuote q l =
      some (l.takeWhile (fun c => c != q), (l.dropWhile (fun c => c != q)).tail) := by
  intro l
  induction l with
  | nil => intro hm; simp at hm
  | cons c rest ih =>
    intro hq
    rw [takeUntilQuote]
    by_cases hc : c = q
    · rw [if_pos hc]
      simp [List.takeWhile_cons, List.dropWhile_cons, hc]
    · have hm : q ∈ rest := by
        cases List.mem_cons.mp hq with
        | inl h => exact absurd h.symm hc
        | inr h => exact h
      rw [if_neg hc, ih hm]
      simp [List.takeWhile_cons, List.dropWhile_cons, hc]

theorem scanEntries_eq_find (dir suffix name : String) :
    ∀ entries : List String, scanEntries dir suffix name entries =
      (entries.find? (fun e => e == name || e == name ++ suffix)).map (pathJoin dir) := by
  intro entries
  induction entries with
  | nil => rfl
  | cons e rest ih =>
    rw [scanEntries]
    by_cases hm : (e == name || e == name ++ suffix) = true
    · rw [if_pos hm]
      simp [List.find?, hm]
    · have hm' : (e == name || e == name ++ suffix) = false := by simpa using hm
      rw [if_neg hm, ih]
      simp [List.find?, hm']

/-- C7: `find_executable` implements the spec's resolver contract: it scans the
directories obtained by splitting the search path strictly in order, silently
skips every directory that cannot be listed, returns the joined path of the first
entry equal to the name exactly or to the name plus the platform executable
suffix (so a match in an earlier directory shadows any match in a later one), and
returns nothing when no directory yields a match. -/
theorem C7_resolver (listing : String → Option (List String))
    (suffix search_path name : String) :
    find_executable listing suffix search_path name =
      resolveSpec listing suffix name
        ((splitSep SYSTEM_PATH_SPERATOR search_path.data).map String.mk) := by
  unfold find_executable
  generalize (splitSep SYSTEM_PATH_SPERATOR search_path.data).map String.mk = dirs
  induction dirs with
  | nil => rfl
  | cons d dirs ih =>
    rw [searchDirs, resolveSpec]
    cases listing d with
    | none => exact ih
    | some entries =>
      show (match scanEntries d suffix name entries with
            | some p => some p
            | none => searchDirs listing suffix name dirs) =
          (match entries.find? (fun e => e == name || e == name ++ suffix) with
            | some e => some (pathJoin d e)
            | none => resolveSpec listing suffix name dirs)
      rw [scanEntries_eq_find]
      cases hf : entries.find? (fun e => e == name || e == name ++ suffix) with
      | none => simpa [hf] using ih
      | some e => simp [hf]

theorem parse_nil : parse [] = .ok ⟨"", []⟩ := rfl

theorem parse_ok_nonempty_input {rawLine : String} {cmd : Cmd}
    (hp : parse (processedInput rawLine) = .ok cmd) (hprog : cmd.program ≠ "") :
    ¬(processedInput rawLine).isEmpty = true := by
  intro hemp
  have hnil : processedInput rawLine = [] := by simpa using hemp
  rw [hnil, parse_nil] at hp
  have : (⟨"", []⟩ : Cmd) = cmd := by simpa using hp
  exact hprog (by rw [← this])

theorem step_ok (env : ShellEnv) (w : CdWorld) (rawLine : String) (cmd : Cmd)
    (hne : ¬(processedInput rawLine).isEmpty = true)
    (hp : parse (processedInput rawLine) = .ok cmd) :
    step env w rawLine =
      (match dispatch env cmd with
        | .runBuiltin name args => runBuiltinStep env w name args
        | .spawnProgram prog args =>
          .next w [.out (env.runProgram prog args).1, .errOut (env.runProgram prog args).2]
        | .reportNotFound prog => .next w [.out (prog ++ ": command not found\n")]) := by
  simp only [step]
  rw [if_neg hne, hp]

/-- C1 counterexample: on the line `echo 'x` (unterminated single quote) the loop
does not continue to the next prompt iteration: the iteration ends with a fatal
error (main's `?` on the parse result), which terminates the process. -/
theorem C1_counterexample :
    step env0 w0 "echo 'x" = .fatal (.parseFailure .unterminatedSingle) [] :=
  rfl

/-- C1 (amended): a tokenizer failure on the current line is reported as an error
wrapped with the context "unable to parse prompt" which propagates out of the loop
via `?`: the iteration ends the process with a fatal error rather than returning
to the prompt, and no output event is produced. -/
theorem C1_parse_error_fatal (env : ShellEnv) (w : CdWorld) (rawLine : String)
    (e : ParseError) (h : parse (processedInput rawLine) = .error e) :
    step env w rawLine = .fatal (.parseFailure e) [] := by
  have hne : ¬(processedInput rawLine).isEmpty = true := by
    intro hemp
    have hnil : processedInput rawLine = [] := by simpa using hemp
    rw [hnil, parse_nil] at h
    exact absurd h (by simp)
  simp only [step]
  rw [if_neg hne, h]

/-- C1 witness: the amended theorem applied to the concrete line `echo 'x`. -/
theorem C1_parse_error_fatal_witness :
    step env0 w0 "echo 'x" = .fatal (.parseFailure .unterminatedSingle) [] :=
  C1_parse_error_fatal env0 w0 "echo 'x" .unterminatedSingle rfl

/-- C2 counterexample: tokenizing `echo 'a b' c` yields args `["a b", "", "c"]`,
not `["a b", "c"]`: the whitespace after the quoted span pushes the (empty)
current token, so an empty token is produced. -/
theorem C2_counterexample :
    parse "echo 'a b' c".data = .ok ⟨"echo", ["a b", "", "c"]⟩ ∧
    Cmd.mk "echo" ["a b", "", "c"] ≠ Cmd.mk "echo" ["a b", "c"] ∧
    "" ∈ (Cmd.mk "echo" ["a b", "", "c"]).args :=
  ⟨rfl, by decide, by decide⟩

/-- C2 (amended): an unquoted whitespace character always pushes the current token
— even when it is empty, as happens right after a quoted span — and then the whole
whitespace run is skipped, so each run produces exactly one push; consequently
`echo 'a b' c` tokenizes to program `echo` and args `["a b", "", "c"]`. -/
theorem C2_whitespace_push (c : Char) (rest cur : List Char)
    (hws : rustIsWhitespace c = true) :
    parseLoop (c :: rest) cur =
      Except.map (fun comps => cur :: comps)
        (parseLoop (rest.dropWhile rustIsWhitespace) []) ∧
    parse "echo 'a b' c".data = .ok ⟨"echo", ["a b", "", "c"]⟩ := by
  constructor
  · have h1 : ¬c = '\'' := by intro hc; rw [hc] at hws; exact absurd hws (by decide)
    have h2 : ¬c = '"' := by intro hc; rw [hc] at hws; exact absurd hws (by decide)
    have h3 : ¬c = '\\' := by intro hc; rw [hc] at hws; exact absurd hws (by decide)
    show parseLoopF (c :: rest).length (c :: rest) cur = _
    simp only [List.length_cons, parseLoopF]
    rw [if_neg h1, if_neg h2, if_neg h3, if_pos hws,
      parseLoopF_congr rest.length (rest.dropWhile rustIsWhitespace) []
        (dropWhile_length_le rustIsWhitespace rest)]
  · rfl

/-- C2 witness: the amended theorem applied at the space character. -/
theorem C2_whitespace_push_witness :
    parseLoop (' ' :: ['a']) ['x'] =
      Except.map (fun comps => ['x'] :: comps)
        (parseLoop (['a'].dropWhile rustIsWhitespace) []) ∧
    parse "echo 'a b' c".data = .ok ⟨"echo", ["a b", "", "c"]⟩ :=
  ⟨(C2_whitespace_push ' ' ['a'] ['x'] (by decide)).1,
   (C2_whitespace_push ' ' ['a'] ['x'] (by decide)).2⟩

/-- C3 counterexample: `a'b'c` does not tokenize to the single token `abc`: the
quoted span becomes its own component `b`, pushed before the surrounding unquoted
text, which coalesces into a separate token `ac`. -/
theorem C3_counterexample :
    parse "a'b'c".data = .ok ⟨"b", ["ac"]⟩ ∧
    Cmd.mk "b" ["ac"] ≠ Cmd.mk "abc" [] :=
  ⟨rfl, by decide⟩

/-- C3 (amended): a single quote opens a literal span copied verbatim (the
characters strictly before the next single quote), but the span is pushed as its
own separate component — the current token stays pending, so quoted text adjacent
to unquoted text does not merge with it in order (e.g. `a'b'c` tokenizes to `b`
then `ac`); a missing closing quote is the unterminated-quote parse error. -/
theorem C3_single_quote (rest cur : List Char) :
    ('\'' ∉ rest → parseLoop ('\'' :: rest) cur = .error .unterminatedSingle) ∧
    ('\'' ∈ rest →
      parseLoop ('\'' :: rest) cur =
        Except.map (fun comps => rest.takeWhile (fun c => c != '\'') :: comps)
          (parseLoop ((rest.dropWhile (fun c => c != '\'')).tail) cur)) ∧
    parse "a'b'c".data = .ok ⟨"b", ["ac"]⟩ := by
  refine ⟨?_, ?_, rfl⟩
  · intro hni
    show parseLoopF ('\'' :: rest).length ('\'' :: rest) cur = _
    simp only [List.length_cons, parseLoopF]
    rw [if_pos trivial, takeUntilQuote_eq_none rest hni]
  · intro hmem
    have hlen : ((rest.dropWhile (fun c => c != '\'')).tail).length ≤ rest.length := by
      have h1 := dropWhile_length_le (fun c => c != '\'') rest
      have h2 : ((rest.dropWhile (fun c => c != '\'')).tail).length ≤
          (rest.dropWhile (fun c => c != '\'')).length := by
        cases rest.dropWhile (fun c => c != '\'') <;> simp
      omega
    show parseLoopF ('\'' :: rest).length ('\'' :: rest) cur = _
    simp only [List.length_cons, parseLoopF]
    rw [if_pos trivial, takeUntilQuote_eq_some rest hmem]
    show Except.map (fun comps => rest.takeWhile (fun c => c != '\'') :: comps)
        (parseLoopF rest.length ((rest.dropWhile (fun c => c != '\'')).tail) cur) = _
    rw [parseLoopF_congr rest.length ((rest.dropWhile (fun c => c != '\'')).tail) cur hlen]

/-- C3 witness: the amended theorem applied at concrete spans. -/
theorem C3_single_quote_witness :
    parseLoop ('\'' :: ['x']) [] = .error .unterminatedSingle ∧
    parse "a'b'c".data = .ok ⟨"b", ["ac"]⟩ :=
  ⟨(C3_single_quote ['x'] []).1 (by decide), (C3_single_quote ['x'] []).2.2⟩

/-- C5 counterexample: for the line `'' x` the dispatched Command has the empty
string as its program: the empty quoted span becomes an empty first component, and
the command is dispatched (reported as command not found), violating the claimed
invariant. -/
theorem C5_counterexample :
    parse "'' x".data = .ok ⟨"", ["", "x"]⟩ ∧
    dispatch env0 ⟨"", ["", "x"]⟩ = .reportNotFound "" ∧
    step env0 w0 "'' x" = .next w0 [.out ": command not found\n"] :=
  ⟨rfl, rfl, rfl⟩

/-- C5 (amended): for every non-empty processed line the scanning loop yields a
non-empty component list, so `components.remove(0)` cannot panic and a Command is
always formed — but its `program` field may be the empty string, as for the line
`'' x`. -/
theorem C5_program_may_be_empty (l : List Char) (comps : List (List Char))
    (hne : l ≠ []) (h : parseLoop l [] = .ok comps) :
    comps ≠ [] ∧ parse "'' x".data = .ok ⟨"", ["", "x"]⟩ :=
  ⟨parseLoop_ok_ne_nil l [] comps (Or.inl hne) h, rfl⟩

/-- C5 witness: the amended theorem applied to the one-character line `a`. -/
theorem C5_program_may_be_empty_witness :
    ([['a']] : List (List Char)) ≠ [] ∧ parse "'' x".data = .ok ⟨"", ["", "x"]⟩ :=
  ⟨(C5_program_may_be_empty ['a'] [['a']] (by decide) rfl).1,
   (C5_program_may_be_empty ['a'] [['a']] (by decide) rfl).2⟩

/-- C4 counterexample: `exit 999` and `exit abc` do not leave the loop running:
the handler's error propagates through `builtin_fn(cmd.args)?` and the iteration
ends the process with a fatal error instead of continuing to the next prompt. -/
theorem C4_counterexample :
    step env0 w0 "exit 999" = .fatal (.builtinFailure exitParseMsg) [] ∧
    step env0 w0 "exit abc" = .fatal (.builtinFailure exitParseMsg) [] :=
  ⟨rfl, rfl⟩

/-- C4 (amended): an exit argument that does not parse as a `u8` (non-numeric or
out of `0..=255`) makes `builtin_exit` return an error and no termination request,
and the error is reported by propagating out of the loop: the iteration ends the
process with a fatal error rather than continuing. -/
theorem C4_exit_bad_arg_fatal (env : ShellEnv) (w : CdWorld) (rawLine : String)
    (cmd : Cmd) (code : String)
    (hp : parse (processedInput rawLine) = .ok cmd)
    (hprog : cmd.program = "exit")
    (hhead : cmd.args.head? = some code)
    (hbad : parseU8 code = none) :
    step env w rawLine = .fatal (.builtinFailure exitParseMsg) [] := by
  have hne := parse_ok_nonempty_input hp (by rw [hprog]; decide)
  have hexit : builtin_exit cmd.args = .error exitParseMsg := by
    unfold builtin_exit
    rw [hhead]
    show (match parseU8 code with
          | some n => Except.ok (some n)
          | none => Except.error exitParseMsg) = Except.error exitParseMsg
    rw [hbad]
  rw [step_ok env w rawLine cmd hne hp]
  have hdisp : dispatch env cmd = .runBuiltin cmd.program cmd.args := by
    unfold dispatch
    rw [if_pos (by rw [hprog]; decide)]
  rw [hdisp]
  show runBuiltinStep env w cmd.program cmd.args = _
  rw [hprog]
  unfold runBuiltinStep
  rw [if_pos rfl, hexit]

/-- C4 witness: the amended theorem applied at the line `exit 999`. -/
theorem C4_exit_bad_arg_fatal_witness :
    step env0 w0 "exit 999" = .fatal (.builtinFailure exitParseMsg) [] :=
  C4_exit_bad_arg_fatal env0 w0 "exit 999" ⟨"exit", ["999"]⟩ "999" rfl rfl rfl rfl

/-- C6 counterexample: with `/bin` containing `ls` on the search path, the
resolver yields `/bin/ls`, yet the dispatch step spawns with the bare name `ls`
(the value passed to `Command::new`), which differs from the resolved path. -/
theorem C6_counterexample :
    find_executable envBin.listing envBin.exeSuffix envBin.searchPath "ls" = some "/bin/ls" ∧
    dispatch envBin ⟨"ls", []⟩ = .spawnProgram "ls" [] ∧
    ("ls" : String) ≠ "/bin/ls" :=
  ⟨rfl, rfl, by decide⟩

/-- C6 (amended): a non-builtin program that the resolver finds is spawned with
the bare program name — the resolved path serves only as an existence check — and
the child's captured stdout and stderr bytes are written through verbatim to the
shell's corresponding streams. -/
theorem C6_spawn_bare_name (env : ShellEnv) (w : CdWorld) (rawLine : String)
    (cmd : Cmd) (p : String)
    (hne : ¬(processedInput rawLine).isEmpty = true)
    (hp : parse (processedInput rawLine) = .ok cmd)
    (hnb : builtinNames.contains cmd.program = false)
    (hfind : find_executable env.listing env.exeSuffix env.searchPath cmd.program = some p) :
    dispatch env cmd = .spawnProgram cmd.program cmd.args ∧
    step env w rawLine = .next w
      [.out (env.runProgram cmd.program cmd.args).1,
       .errOut (env.runProgram cmd.program cmd.args).2] := by
  have hdisp : dispatch env cmd = .spawnProgram cmd.program cmd.args := by
    unfold dispatch
    rw [if_neg (by rw [hnb]; simp), if_pos (by rw [hfind]; rfl)]
  refine ⟨hdisp, ?_⟩
  rw [step_ok env w rawLine cmd hne hp, hdisp]

/-- C6 witness: the amended theorem applied at the line `ls` in the concrete
environment; the echoing spawn primitive shows the spawned name is `ls`. -/
theorem C6_spawn_bare_name_witness :
    dispatch envBin ⟨"ls", []⟩ = .spawnProgram "ls" [] ∧
    step envBin w0 "ls" = .next w0 [.out "ls", .errOut ""] := by
  have h := C6_spawn_bare_name envBin w0 "ls" ⟨"ls", []⟩ "/bin/ls" (by decide) rfl rfl rfl
  exact ⟨h.1, h.2⟩

/-- C8: once the `env::current_dir()` query succeeds, `cd` with one non-`~`
argument whose canonicalization fails with not-found prints
`cd: <path>: No such file or directory`, leaves the world — in particular the
current working directory — unchanged, and the loop continues with the next
iteration; any other canonicalization failure, a directory-change failure, or a
failed working-directory query is an error that propagates out of the loop
(fatal). -/
theorem C8_cd_not_found (w : CdWorld) (input : String) (hni : input ≠ "~") :
    (w.cwdReadable = true → w.canonicalize input = .notFound →
      builtin_cd w [input] = .ok ["cd: " ++ input ++ ": No such file or directory"] w) ∧
    (∀ msg, w.cwdReadable = true → w.canonicalize input = .otherErr msg →
      builtin_cd w [input] = .fatal msg) ∧
    (∀ path, w.cwdReadable = true → w.canonicalize input = .ok path →
      w.chdirOk path = false →
      builtin_cd w [input] = .fatal "could not set current directory") ∧
    (w.cwdReadable = false →
      builtin_cd w [input] = .fatal "could not get current directory") ∧
    (∀ (env : ShellEnv) (w' : CdWorld) (printed : List String) (rawLine : String)
      (cmd : Cmd),
      parse (processedInput rawLine) = .ok cmd → cmd.program = "cd" →
      builtin_cd w cmd.args = .ok printed w' →
      step env w rawLine = .next w' (printed.map (fun s => OutEvent.out (s ++ "\n")))) := by
  refine ⟨?_, ?_, ?_, ?_, ?_⟩
  · intro hcwd hcan
    simp only [builtin_cd]
    rw [if_neg hni, if_pos hcwd, hcan]
  · intro msg hcwd hcan
    simp only [builtin_cd]
    rw [if_neg hni, if_pos hcwd, hcan]
  · intro path hcwd hcan hch
    simp only [builtin_cd]
    rw [if_neg hni, if_pos hcwd, hcan]
    show (if w.chdirOk path = true then CdResult.ok [] { w with cwd := path }
          else CdResult.fatal "could not set current directory") =
        CdResult.fatal "could not set current directory"
    rw [if_neg (by rw [hch]; simp)]
  · intro hcwd
    simp only [builtin_cd]
    rw [if_neg hni, if_neg (by rw [hcwd]; simp)]
  · intro env w' printed rawLine cmd hp hprog hcd
    have hne := parse_ok_nonempty_input hp (by rw [hprog]; decide)
    rw [step_ok env w rawLine cmd hne hp]
    have hdisp : dispatch env cmd = .runBuiltin cmd.program cmd.args := by
      unfold dispatch
      rw [if_pos (by rw [hprog]; decide)]
    rw [hdisp]
    show runBuiltinStep env w cmd.program cmd.args = _
    rw [hprog]
    unfold runBuiltinStep
    rw [if_neg (by decide), if_neg (by decide), if_neg (by decide), if_neg (by decide),
      if_pos rfl, hcd]

/-- C8 witness: `cd /nope` with a readable working directory and every
canonicalization failing as not-found prints the message, leaves the world
unchanged, and the loop continues; with an unreadable working directory the same
invocation is fatal. -/
theorem C8_cd_not_found_witness :
    builtin_cd w0 ["/nope"] = .ok ["cd: /nope: No such file or directory"] w0 ∧
    builtin_cd w0unreadable ["/nope"] = .fatal "could not get current directory" ∧
    step env0 w0 "cd /nope" =
      .next w0 [.out ("cd: /nope: No such file or directory" ++ "\n")] := by
  refine ⟨(C8_cd_not_found w0 "/nope" (by decide)).1 rfl rfl,
    (C8_cd_not_found w0unreadable "/nope" (by decide)).2.2.2.1 rfl, ?_⟩
  exact (C8_cd_not_found w0 "/nope" (by decide)).2.2.2.2 env0 w0
    ["cd: /nope: No such file or directory"] "cd /nope" ⟨"cd", ["/nope"]⟩ rfl rfl
    ((C8_cd_not_found w0 "/nope" (by decide)).1 rfl rfl)

/-- C9: `type` prints one line per name in the order given — the builtin line for
registered builtin names (checked before the search path, so builtins shadow
same-named executables), the resolved-path line for resolvable names, the
not-found line otherwise — and it never errors and never requests termination. -/
theorem C9_type (listing : String → Option (List String)) (suffix search_path : String)
    (args : List String) :
    builtin_type listing suffix search_path args =
      (args.map (typeLine listing suffix search_path), .ok none) ∧
    ∀ name ∈ builtinNames,
      typeLine listing suffix search_path name = name ++ " is a shell builtin" := by
  constructor
  · unfold builtin_type
    have hmap : typeLoop listing suffix search_path args =
        args.map (typeLine listing suffix search_path) := by
      induction args with
      | nil => rfl
      | cons a rest ih =>
        rw [typeLoop, List.map_cons, ih]
        rfl
    rw [hmap]
  · intro name hn
    have hc : builtinNames.contains name = true := by
      have hn' := hn
      simp only [builtinNames, List.mem_cons, List.not_mem_nil, or_false] at hn'
      rcases hn' with h | h | h | h | h <;> (subst h; rfl)
    unfold typeLine
    rw [if_pos hc]

/-- C9 witness: the theorem applied at a list containing a builtin name that also
exists as an executable entry in `/bin` (shadowed), a resolvable name, and an
unknown name. -/
theorem C9_type_witness :
    builtin_type listingBin "" "/bin" ["echo", "ls", "zzz"] =
      (["echo is a shell builtin", "ls is /bin/ls", "zzz: not found"], .ok none) ∧
    typeLine listingBin "" "/bin" "echo" = "echo is a shell builtin" := by
  constructor
  · rw [(C9_type listingBin "" "/bin" ["echo", "ls", "zzz"]).1]
    rfl
  · exact (C9_type listingBin "" "/bin" ["echo", "ls", "zzz"]).2 "echo" (by decide)

/-- C10: `builtin_cd`'s `assert!(args.len() == 1)` panics precisely when the
number of arguments differs from one (zero, or two or more); with exactly one
argument the assertion cannot fire and the handler returns normally or with a
propagated error. -/
theorem C10_cd_assert (w : CdWorld) (args : List String) :
    (args.length ≠ 1 → builtin_cd w args = .panicked) ∧
    (args.length = 1 → builtin_cd w args ≠ .panicked) := by
  constructor
  · intro hlen
    match args with
    | [] => rfl
    | [a] => simp at hlen
    | a :: b :: rest => rfl
  · intro hlen
    match args with
    | [] => simp at hlen
    | a :: b :: rest => simp at hlen
    | [a] =>
      intro hcon
      simp only [builtin_cd] at hcon
      split at hcon
      · split at hcon
        · exact CdResult.noConfusion hcon
        · split at hcon
          · exact CdResult.noConfusion hcon
          · exact CdResult.noConfusion hcon
      · split at hcon
        · split at hcon
          · split at hcon
            · exact CdResult.noConfusion hcon
            · exact CdResult.noConfusion hcon
          · exact CdResult.noConfusion hcon
          · exact CdResult.noConfusion hcon
        · exact CdResult.noConfusion hcon

/-- C10 witness: zero and two arguments panic; one argument does not. -/
theorem C10_cd_assert_witness :
    builtin_cd w0 [] = .panicked ∧ builtin_cd w0 ["a", "b"] = .panicked ∧
    builtin_cd w0 ["/nope"] ≠ .panicked :=
  ⟨(C10_cd_assert w0 []).1 (by decide), (C10_cd_assert w0 ["a", "b"]).1 (by decide),
   (C10_cd_assert w0 ["/nope"]).2 (by decide)⟩
